import Mathlib

/-!
Verification of the asynchronous bulk-verification batch engine of the
mail-finder frontend.

The definitions below are a shallow embedding of the TypeScript source:

* `processJobRun`, `processFrom`, `markProcessing`, `recordOutcome`,
  `createJob` embed the batch worker `processJob` and the job-creation
  `POST` handler of `src/app/api/bulk-verify/route.ts`.  The external
  `verifyEmail` call made for each item is abstracted as an oracle
  `lookup : Nat → LookupOutcome` giving, per item index, either the
  verifier result the call returned or the fact that the call threw.
  Database writes are modelled as a list of persisted job snapshots
  (the trace); database writes themselves are assumed to succeed (store
  faults are outside this model).
* `stopAll` embeds the `POST` handler of
  `src/app/api/bulk-verify/stop/route.ts`.
* `getJobStatus` embeds the `GET` handler of the job-status route
  (`bulk-verify/status`), which queries by job id and user id.
* `pollStep` / `runPoller` embed the client-side polling loop
  `pollJobStatus` of the bulk-finder page component.
* `findLoop` / `findEmailRealRun` and `verifyEmailRealRun` embed the
  retry and error-classification logic of
  `src/lib/services/email-finder.ts` (`findEmailReal`) and
  `src/lib/services/email-verifier.ts` (`verifyEmailReal`); the HTTP
  fetch together with JSON parsing of a successful response is
  abstracted as an `Except JsError _` oracle per attempt.
-/

namespace MailFinder

/-- Status vocabulary returned by the email verifier
(`email-verifier.ts`, `EmailVerifierResult.status`). -/
inductive VerifyStatus where
  | valid
  | invalid
  | risky
  | unknown
  | error
  deriving DecidableEq, Repr

/-- Status of one entry of `emails_data`: initially `pending`, transiently
`processing`, finally the verifier status written by the worker
(`route.ts` lines 64-69, 235, 245-247, 288-290). -/
inductive ItemStatus where
  | pending
  | processing
  | done (v : VerifyStatus)
  deriving DecidableEq, Repr

/-- Job status of a `bulk_verification_jobs` row. -/
inductive JobStatus where
  | pending
  | processing
  | completed
  | failed
  deriving DecidableEq, Repr

/-- Result object returned by `verifyEmail` (`email-verifier.ts`,
interface `EmailVerifierResult`). -/
structure VerifyResult where
  email : String
  status : VerifyStatus
  confidence : Nat
  reason : Option String
  deliverable : Option Bool
  disposable : Option Bool
  role_account : Option Bool
  catch_all : Option Bool
  domain : Option String
  mx : Option String
  user_name : Option String
  deriving DecidableEq, Repr

/-- Result record stored on an item by the worker: either the copied
fields of a verifier result (`route.ts` lines 248-259) or the generic
error record of the catch branch (lines 291-294), whose other fields are
absent. -/
structure StoredResult where
  status : VerifyStatus
  confidence : Option Nat
  deliverable : Option Bool
  disposable : Option Bool
  role_account : Option Bool
  reason : Option String
  catch_all : Option Bool
  domain : Option String
  mx : Option String
  user_name : Option String
  deriving DecidableEq, Repr

/-- Stored result built from a verifier result, copying the fields listed
at `route.ts` lines 248-259. -/
def storedOfVerify (r : VerifyResult) : StoredResult :=
  { status := r.status
    confidence := some r.confidence
    deliverable := r.deliverable
    disposable := r.disposable
    role_account := r.role_account
    reason := r.reason
    catch_all := r.catch_all
    domain := r.domain
    mx := r.mx
    user_name := r.user_name }

/-- Stored result written by the per-item catch branch
(`route.ts` lines 291-294): status `error`, reason `Processing failed`. -/
def processingFailedResult : StoredResult :=
  { status := VerifyStatus.error
    confidence := none
    deliverable := none
    disposable := none
    role_account := none
    reason := some "Processing failed"
    catch_all := none
    domain := none
    mx := none
    user_name := none }

/-- One entry of the `emails_data` array (`route.ts` lines 64-69). -/
structure EmailItem where
  id : Nat
  email : String
  status : ItemStatus
  result : Option StoredResult
  deriving DecidableEq, Repr

/-- The mutable fields of a `bulk_verification_jobs` row that the worker
reads and writes. -/
structure JobState where
  status : JobStatus
  totalEmails : Nat
  emailsData : List EmailItem
  currentIndex : Nat
  processedEmails : Nat
  successfulVerifications : Nat
  failedVerifications : Nat
  errorMessage : Option String
  completedAt : Bool
  deriving DecidableEq, Repr

/-- Behaviour of the `verifyEmail` call for one item: the call either
returned a result or threw an exception. -/
inductive LookupOutcome where
  | ok (r : VerifyResult)
  | exn
  deriving DecidableEq, Repr

/-- JavaScript `String.prototype.trim`: strip whitespace from both
ends (structural model of the `email.trim()` call). -/
def strTrim (s : String) : String :=
  String.mk (((s.toList.dropWhile Char.isWhitespace).reverse.dropWhile
    Char.isWhitespace).reverse)

/-- Job created by the `POST` handler (`route.ts` lines 64-79): every item
`pending` with the trimmed email, job `pending`, aggregates absent (read
back as 0 through the `|| 0` defaults of `processJob`). -/
def createJob (emails : List String) : JobState :=
  { status := JobStatus.pending
    totalEmails := emails.length
    emailsData := emails.mapIdx (fun i e =>
      { id := i, email := strTrim e, status := ItemStatus.pending, result := none })
    currentIndex := 0
    processedEmails := 0
    successfulVerifications := 0
    failedVerifications := 0
    errorMessage := none
    completedAt := false }

/-- First persisted write of a loop iteration (`route.ts` lines 234-239):
item `i` marked `processing`, `current_index` set to `i`. -/
def markProcessing (s : JobState) (i : Nat) (it : EmailItem) : JobState :=
  { s with
    emailsData := s.emailsData.set i { it with status := ItemStatus.processing }
    currentIndex := i }

/-- Second persisted write of a loop iteration: on a returned result,
`route.ts` lines 244-279 (item set to the result status, counters split on
`result.status !== error`, `current_index := i + 1`); on a thrown
exception, lines 284-305 (item set to `error` with the generic record,
`processed` and `failed` incremented, `current_index := i + 1`). -/
def recordOutcome (s : JobState) (i : Nat) (it : EmailItem) (o : LookupOutcome) : JobState :=
  match o with
  | LookupOutcome.ok r =>
    { s with
      emailsData := s.emailsData.set i
        { it with status := ItemStatus.done r.status, result := some (storedOfVerify r) }
      currentIndex := i + 1
      processedEmails := s.processedEmails + 1
      successfulVerifications :=
        if r.status = VerifyStatus.error then s.successfulVerifications
        else s.successfulVerifications + 1
      failedVerifications :=
        if r.status = VerifyStatus.error then s.failedVerifications + 1
        else s.failedVerifications }
  | LookupOutcome.exn =>
    { s with
      emailsData := s.emailsData.set i
        { it with status := ItemStatus.done VerifyStatus.error
                  result := some processingFailedResult }
      currentIndex := i + 1
      processedEmails := s.processedEmails + 1
      failedVerifications := s.failedVerifications + 1 }

/-- Item produced for an originally `pending` item by the iteration that
processes it (final value of `emailsData[i]` after the iteration). -/
def applyOutcome (o : LookupOutcome) (it : EmailItem) : EmailItem :=
  match o with
  | LookupOutcome.ok r =>
    { it with status := ItemStatus.done r.status, result := some (storedOfVerify r) }
  | LookupOutcome.exn =>
    { it with status := ItemStatus.done VerifyStatus.error
              result := some processingFailedResult }

/-- The worker loop (`route.ts` lines 226-307): starting at index `i`,
iterate in index order; skip items that are not `pending`; for a
`pending` item persist the `processing` mark, then the outcome of the
lookup.  Returns the state after the loop together with the list of
persisted snapshots, in order.  `fuel` bounds the number of iterations;
the run supplies `emailsData.length - currentIndex`, the exact iteration
count of the `for` loop. -/
def processFrom (lookup : Nat → LookupOutcome) :
    Nat → Nat → JobState → JobState × List JobState
  | 0, _, s => (s, [])
  | Nat.succ fuel, i, s =>
    match s.emailsData[i]? with
    | none => (s, [])
    | some it =>
      if it.status = ItemStatus.pending then
        let s1 := markProcessing s i it
        let s2 := recordOutcome s1 i it (lookup i)
        let rest := processFrom lookup fuel (i + 1) s2
        (rest.1, s1 :: s2 :: rest.2)
      else
        processFrom lookup fuel (i + 1) s

/-- One full run of the worker `processJob` (`route.ts` lines 197-330):
set the job `processing` (lines 213-217, unconditionally), run the loop
from `current_index` (line 220, `|| 0` folded into the `Nat` field), then
mark the job `completed` with `completed_at` set (lines 309-316,
unconditionally after the loop).  Returns the final state and the full
list of persisted snapshots including the initial `processing` write and
the final `completed` write. -/
def processJobRun (lookup : Nat → LookupOutcome) (job : JobState) :
    JobState × List JobState :=
  let s0 : JobState := { job with status := JobStatus.processing }
  let r := processFrom lookup (s0.emailsData.length - s0.currentIndex) s0.currentIndex s0
  let fin : JobState := { r.1 with status := JobStatus.completed, completedAt := true }
  (fin, s0 :: r.2 ++ [fin])

/-- Persisted `bulk_verification_jobs` row together with its identity
columns, as seen by the owner-scoped routes. -/
structure StoredJob where
  id : String
  userId : String
  state : JobState
  updatedAt : Nat
  deriving DecidableEq, Repr

/-- Fixed error message written by the stop route
(`stop/route.ts` line 39). -/
def stopReasonMsg : String := "Job manually stopped due to insufficient credits"

/-- Statuses matched by the stop route filter
(`stop/route.ts` line 43, `.in(status, [processing, pending])`). -/
def isActiveStatus (st : JobStatus) : Bool :=
  st = JobStatus.processing || st = JobStatus.pending

/-- Predicate selecting the rows the stop route updates: owned by the
user and currently `processing` or `pending` (`stop/route.ts` lines
42-43). -/
def stopTargets (uid : String) (j : StoredJob) : Bool :=
  j.userId = uid && isActiveStatus j.state.status

/-- Field-level update applied by the stop route to each selected row
(`stop/route.ts` lines 37-41): status `failed`, the fixed error message,
and a refreshed `updated_at`. -/
def stopJobUpdate (now : Nat) (j : StoredJob) : StoredJob :=
  { j with
    state := { j.state with
               status := JobStatus.failed
               errorMessage := some stopReasonMsg }
    updatedAt := now }

/-- Response of the stop route: 401 without a user, otherwise the number
of rows the update returned (`stop/route.ts` lines 25-30, 56-60). -/
inductive StopResponse where
  | unauthorized
  | ok (stoppedJobs : Nat)
  deriving DecidableEq, Repr

/-- The `POST` handler of `stop/route.ts`: updates every job of the
authenticated user whose status is `processing` or `pending`, and reports
how many rows the update-with-select returned.  The handler takes no job
identifier.  Returns the new store contents and the response. -/
def stopAll (user : Option String) (now : Nat) (jobs : List StoredJob) :
    List StoredJob × StopResponse :=
  match user with
  | none => (jobs, StopResponse.unauthorized)
  | some uid =>
    let newJobs := jobs.map (fun j => if stopTargets uid j then stopJobUpdate now j else j)
    let updatedRows := (jobs.filter (stopTargets uid)).map (stopJobUpdate now)
    (newJobs, StopResponse.ok updatedRows.length)

/-- Response of the job-status `GET` route: 400 without a `jobId`
parameter, 401 without a user, 404 when the owner-scoped single-row query
fails, otherwise the job row. -/
inductive GetJobResponse where
  | badRequest
  | unauthorized
  | notFound
  | ok (job : StoredJob)
  deriving DecidableEq, Repr

/-- The `.eq(id).eq(user_id).single()` query of the status route: the
unique row matching both columns, `none` when zero or several rows
match. -/
def singleByIdAndUser (jid uid : String) (jobs : List StoredJob) : Option StoredJob :=
  match jobs.filter (fun j => j.id = jid && j.userId = uid) with
  | [j] => some j
  | _ => none

/-- The `GET` handler of the bulk-verify status route: checks the
`jobId` parameter, then the user, then performs the owner-scoped
single-row query and answers 404 on failure. -/
def getJobStatus (jobIdParam : Option String) (user : Option String)
    (jobs : List StoredJob) : GetJobResponse :=
  match jobIdParam with
  | none => GetJobResponse.badRequest
  | some jid =>
    match user with
    | none => GetJobResponse.unauthorized
    | some uid =>
      match singleByIdAndUser jid uid jobs with
      | some job => GetJobResponse.ok job
      | none => GetJobResponse.notFound

/-- Base polling delay of the status poller (`pollInterval = 2000`). -/
def pollBaseMs : Nat := 2000

/-- Cap of the status poller backoff (`Math.min(..., 30000)`). -/
def pollCapMs : Nat := 30000

/-- Observation of one poll: a successfully fetched job status, or a
failure (thrown fetch or an unsuccessful status result). -/
inductive PollOutcome where
  | ok (status : JobStatus)
  | failure
  deriving DecidableEq, Repr

/-- State of the client-side polling loop `pollJobStatus`: its
`retryCount` and `pollInterval` variables, and whether the loop has
stopped rescheduling itself. -/
structure PollerState where
  retryCount : Nat
  pollInterval : Nat
  stopped : Bool
  deriving DecidableEq, Repr

/-- Initial poller state (`retryCount = 0`, `pollInterval = 2000`). -/
def initPoller : PollerState :=
  { retryCount := 0, pollInterval := pollBaseMs, stopped := false }

/-- One iteration of `pollJobStatus`: on a successful poll reset
`retryCount` and `pollInterval` to the base, and stop permanently when
the observed status is `completed` or `failed`; on a failed poll
increment `retryCount` and set
`pollInterval = min(2000 * 2^(retryCount-1), 30000)`.  A stopped poller
never runs again. -/
def pollStep (s : PollerState) (o : PollOutcome) : PollerState :=
  if s.stopped then s
  else
    match o with
    | PollOutcome.ok st =>
      let s' := { s with retryCount := 0, pollInterval := pollBaseMs }
      if st = JobStatus.completed || st = JobStatus.failed then
        { s' with stopped := true }
      else s'
    | PollOutcome.failure =>
      let rc := s.retryCount + 1
      { s with
        retryCount := rc
        pollInterval := min (pollBaseMs * 2 ^ (rc - 1)) pollCapMs }

/-- The polling loop run over a sequence of poll observations. -/
def runPoller (s : PollerState) (outcomes : List PollOutcome) : PollerState :=
  outcomes.foldl pollStep s

/-- A thrown JavaScript error, as inspected by the catch blocks of the
lookup services: its `name` and `message`. -/
structure JsError where
  name : String
  message : String
  deriving DecidableEq, Repr

/-- JavaScript `String.prototype.includes`. -/
def strIncludes (s sub : String) : Bool := decide (sub.toList <:+: s.toList)

/-- Status vocabulary of the email finder (`email-finder.ts`,
`EmailFinderResult.status`). -/
inductive FindStatus where
  | valid
  | invalid
  | error
  deriving DecidableEq, Repr

/-- Email finder result; the fields constructed by the failure paths of
`findEmailReal`.  A successful fetch-and-parse is abstracted as an
oracle producing a fully parsed result. -/
structure FindResult where
  email : Option String
  confidence : Nat
  status : FindStatus
  message : String
  deriving DecidableEq, Repr

/-- Retry cap of `findEmailReal` (`const maxRetries = 3`). -/
def findMaxRetries : Nat := 3

/-- Per-attempt timeout of `findEmailReal`
(`const timeoutMs = 30000`). -/
def findTimeoutMs : Nat := 30000

/-- Per-attempt timeout of `verifyEmailReal`
(`setTimeout(() => controller.abort(), 30000)`). -/
def verifyTimeoutMs : Nat := 30000

/-- Timeout classification of `findEmailReal`
(`error.name === AbortError`). -/
def isTimeoutError (e : JsError) : Bool := e.name = "AbortError"

/-- Connection-failure classification of `findEmailReal`
(message includes `ECONNREFUSED` or `fetch failed`). -/
def isConnectionRefusedError (e : JsError) : Bool :=
  strIncludes e.message "ECONNREFUSED" || strIncludes e.message "fetch failed"

/-- Rate-limit classification of `findEmailReal`
(message includes `429` or `rate limit`). -/
def isRateLimitError (e : JsError) : Bool :=
  strIncludes e.message "429" || strIncludes e.message "rate limit"

/-- Final message computed by `findEmailReal` on its last failed attempt
(`email-finder.ts` lines 155-164): timeout, then connection failure,
then rate limit, else generic. -/
def findFinalMessage (e : JsError) : String :=
  if isTimeoutError e then "Request timed out after 30 seconds"
  else if isConnectionRefusedError e then "Unable to connect to email finder service"
  else if isRateLimitError e then "Rate limit exceeded - too many requests"
  else "Failed to find email due to API error"

/-- Error result surfaced by `findEmailReal` after the last attempt
(`email-finder.ts` lines 166-171). -/
def findErrorResult (e : JsError) : FindResult :=
  { email := none, confidence := 0, status := FindStatus.error
    message := findFinalMessage e }

/-- Unreachable fallback after the retry loop
(`email-finder.ts` lines 182-187). -/
def findFallbackResult : FindResult :=
  { email := none, confidence := 0, status := FindStatus.error
    message := "Failed to find email after all retry attempts" }

/-- Backoff delay before the next find attempt
(`Math.pow(2, attempt) * 1000`). -/
def backoffDelayMs (attempt : Nat) : Nat := 2 ^ attempt * 1000

/-- Retry loop of `findEmailReal` (`email-finder.ts` lines 77-179):
attempts are numbered from 1; a successful attempt returns its parsed
result immediately; a failed attempt either surfaces the classified
error result when `attempt === maxRetries`, or waits the exponential
backoff delay and retries.  Returns the result together with the list of
backoff delays waited. -/
def findLoop (attempt : Nat → Except JsError FindResult) :
    Nat → Nat → FindResult × List Nat
  | 0, _ => (findFallbackResult, [])
  | Nat.succ fuel, attemptNo =>
    match attempt attemptNo with
    | Except.ok r => (r, [])
    | Except.error e =>
      if attemptNo = findMaxRetries then (findErrorResult e, [])
      else
        let rest := findLoop attempt fuel (attemptNo + 1)
        (rest.1, backoffDelayMs attemptNo :: rest.2)

/-- One call of `findEmailReal`: the retry loop started at attempt 1. -/
def findEmailRealRun (attempt : Nat → Except JsError FindResult) :
    FindResult × List Nat :=
  findLoop attempt findMaxRetries 1

/-- Result returned by the catch block of `verifyEmailReal`
(`email-verifier.ts` lines 220-231): status `error` and one generic
reason, whatever the thrown error was. -/
def verifyCatchResult (email : String) : VerifyResult :=
  { email := email
    status := VerifyStatus.error
    confidence := 0
    reason := some "Failed to verify email due to API error"
    deliverable := some false
    disposable := some false
    role_account := some false
    catch_all := none
    domain := none
    mx := none
    user_name := none }

/-- One call of `verifyEmailReal` (`email-verifier.ts` lines 126-232):
a single attempt with no retry loop; a successful fetch-parse-normalize
is abstracted as the `ok` case of the oracle, and any thrown error
produces the generic catch result. -/
def verifyEmailRealRun (email : String) (attempt : Except JsError VerifyResult) :
    VerifyResult :=
  match attempt with
  | Except.ok r => r
  | Except.error _ => verifyCatchResult email

/-- Item whose status is a terminal verifier outcome (counted by
`processed_emails`). -/
def itemDone (it : EmailItem) : Bool :=
  match it.status with
  | ItemStatus.done _ => true
  | _ => false

/-- Item whose terminal outcome is `error` (counted by
`failed_verifications`). -/
def itemErr (it : EmailItem) : Bool :=
  match it.status with
  | ItemStatus.done VerifyStatus.error => true
  | _ => false

/-- Item whose terminal outcome is not `error` (counted by
`successful_verifications`). -/
def itemOk (it : EmailItem) : Bool := itemDone it && !itemErr it

/-- Consistency of a job state: each aggregate counter equals the count
of items it stands for, and the cursor is within bounds.  This holds at
creation and is preserved by every worker write. -/
def WF (s : JobState) : Prop :=
  s.processedEmails = s.emailsData.countP itemDone ∧
  s.successfulVerifications = s.emailsData.countP itemOk ∧
  s.failedVerifications = s.emailsData.countP itemErr ∧
  s.currentIndex ≤ s.emailsData.length

instance (s : JobState) : Decidable (WF s) := by
  unfold WF; infer_instance

/-- The invariant claimed by the specification:
`processedCount = successCount + failCount`, `processedCount ≤ len(items)`
and `0 ≤ cursor ≤ len(items)` (the lower bound is inherent to `Nat`). -/
def SpecInv (s : JobState) : Prop :=
  s.processedEmails = s.successfulVerifications + s.failedVerifications ∧
  s.processedEmails ≤ s.emailsData.length ∧
  s.currentIndex ≤ s.emailsData.length

instance (s : JobState) : Decidable (SpecInv s) := by
  unfold SpecInv; infer_instance

/-- Whether the worker counts a lookup behaviour as failed: a thrown
call, or a returned result whose status is `error`. -/
def outcomeIsError (o : LookupOutcome) : Bool :=
  match o with
  | LookupOutcome.ok r =>
    match r.status with
    | VerifyStatus.error => true
    | _ => false
  | LookupOutcome.exn => true

/-- Whether the item at index `j` of the job state is `pending`. -/
def pendingAt (s : JobState) (j : Nat) : Bool :=
  match s.emailsData[j]? with
  | some it =>
    match it.status with
    | ItemStatus.pending => true
    | _ => false
  | none => false

/-- Count of the indices `i, i+1, ..., i+n-1` satisfying `p`. -/
def countIdx (p : Nat → Bool) : Nat → Nat → Nat
  | _, 0 => 0
  | i, Nat.succ n => (if p i then 1 else 0) + countIdx p (i + 1) n

/-- Lookup oracle that always throws. -/
def lookupExnAll : Nat → LookupOutcome := fun _ => LookupOutcome.exn

/-- A sample successful verifier result. -/
def sampleVerifyOk : VerifyResult :=
  { email := "a@b.c"
    status := VerifyStatus.valid
    confidence := 95
    reason := none
    deliverable := some true
    disposable := some false
    role_account := some false
    catch_all := some false
    domain := some "b.c"
    mx := some "mx.b.c"
    user_name := some "a" }

/-- Lookup oracle that always returns the sample result. -/
def lookupOkAll : Nat → LookupOutcome := fun _ => LookupOutcome.ok sampleVerifyOk

/-- A sample two-item job as created by the submission handler. -/
def sampleJob : JobState := createJob ["a@b.c", "d@e.f"]

/-- A partially processed job resumed with cursor 1: item 0 already
done, item 1 still pending. -/
def resumedJob : JobState :=
  { status := JobStatus.processing
    totalEmails := 2
    emailsData :=
      [{ id := 0, email := "a@b.c", status := ItemStatus.done VerifyStatus.valid
         result := none },
       { id := 1, email := "d@e.f", status := ItemStatus.pending, result := none }]
    currentIndex := 1
    processedEmails := 1
    successfulVerifications := 1
    failedVerifications := 0
    errorMessage := none
    completedAt := false }

/-- First item of the sample job. -/
def pendingItem0 : EmailItem :=
  { id := 0, email := "a@b.c", status := ItemStatus.pending, result := none }

/-- The JavaScript error thrown when the 30-second abort fires. -/
def abortJsError : JsError :=
  { name := "AbortError", message := "The operation was aborted" }

/-- Oracle for the single-item timeout scenario: the verifier call times
out, `verifyEmailReal` catches it and returns its `error` result, which
the worker receives as a returned outcome. -/
def timeoutLookup : Nat → LookupOutcome :=
  fun _ => LookupOutcome.ok (verifyEmailRealRun "x@y.z" (Except.error abortJsError))

/-- A job with no items in terminal status `failed`. -/
def terminalFailedJob : JobState :=
  ⟨JobStatus.failed, 0, [], 0, 0, 0, 0, some "boom", false⟩

/-- A terminal stored job of user `u1`. -/
def doneStoredJob : StoredJob :=
  { id := "j1", userId := "u1", state := terminalFailedJob, updatedAt := 3 }

/-- An active stored job of user `u1` with a nonzero cursor. -/
def activeStoredJob : StoredJob :=
  { id := "j2", userId := "u1"
    state := ⟨JobStatus.processing, 3, [], 2, 1, 1, 0, none, false⟩
    updatedAt := 4 }

/-- Witness for C10 at a two-row store with one active row of the owner
and one row of another owner. -/
def otherOwnerJob : StoredJob :=
  { id := "j3", userId := "u2"
    state := ⟨JobStatus.processing, 1, [], 0, 0, 0, 0, none, false⟩
    updatedAt := 7 }

/-- A find attempt oracle whose every attempt times out. -/
def failAllAttempts : Nat → Except JsError FindResult := fun _ => Except.error abortJsError

/-- Replacing the element at a valid index changes a `countP` by the
difference between the old and the new element, stated without natural
subtraction. -/
theorem countP_set_comm {α : Type} (p : α → Bool) :
    ∀ (l : List α) (i : Nat) (a b : α), l[i]? = some a →
      (l.set i b).countP p + (if p a then 1 else 0) =
        l.countP p + (if p b then 1 else 0) := by
  intro l
  induction l with
  | nil => intro i a b h; simp at h
  | cons x xs ih =>
    intro i a b h
    cases i with
    | zero =>
      simp only [List.getElem?_cons_zero, Option.some_inj] at h
      subst h
      simp only [List.set_cons_zero, List.countP_cons]
      omega
    | succ n =>
      simp only [List.getElem?_cons_succ] at h
      have hx := ih n a b h
      simp only [List.set_cons_succ, List.countP_cons]
      omega

/-- Counting indices with pointwise-equal predicates gives the same
count. -/
theorem countIdx_congr (p q : Nat → Bool) :
    ∀ (n i : Nat), (∀ j, i ≤ j → j < i + n → p j = q j) →
      countIdx p i n = countIdx q i n := by
  intro n
  induction n with
  | zero => intro i _; rfl
  | succ n ih =>
    intro i h
    unfold countIdx
    rw [h i (Nat.le_refl i) (by omega),
      ih (i + 1) (fun j hj1 hj2 => h j (by omega) (by omega))]

/-- Counting a constantly true predicate over a range of indices gives
its length. -/
theorem countIdx_const_true : ∀ (n i : Nat), countIdx (fun _ => true) i n = n := by
  intro n
  induction n with
  | zero => intro i; rfl
  | succ n ih => intro i; unfold countIdx; rw [ih (i + 1)]; simp; omega

/-- The index count agrees with `countP` over `List.range'`. -/
theorem countIdx_eq_range' (p : Nat → Bool) :
    ∀ (n i : Nat), countIdx p i n = (List.range' i n).countP p := by
  intro n
  induction n with
  | zero => intro i; simp [countIdx, List.range'_zero]
  | succ n ih =>
    intro i
    unfold countIdx
    rw [List.range'_succ, List.countP_cons, ih (i + 1)]
    omega

/-- The index count from 0 agrees with `countP` over `List.range`. -/
theorem countIdx_eq_range (p : Nat → Bool) (n : Nat) :
    countIdx p 0 n = (List.range n).countP p := by
  rw [List.range_eq_range', countIdx_eq_range']

/-- An item finished with outcome `v` counts as done. -/
theorem itemDone_done (it : EmailItem) (v : VerifyStatus) (res : Option StoredResult) :
    itemDone { it with status := ItemStatus.done v, result := res } = true := rfl

/-- An item finished with outcome `v` counts as failed exactly when `v`
is `error`. -/
theorem itemErr_done (it : EmailItem) (v : VerifyStatus) (res : Option StoredResult) :
    itemErr { it with status := ItemStatus.done v, result := res } =
      decide (v = VerifyStatus.error) := by
  cases v <;> rfl

/-- An item finished with outcome `v` counts as successful exactly when
`v` is not `error`. -/
theorem itemOk_done (it : EmailItem) (v : VerifyStatus) (res : Option StoredResult) :
    itemOk { it with status := ItemStatus.done v, result := res } =
      !decide (v = VerifyStatus.error) := by
  cases v <;> rfl

/-- A pending item counts in none of the three aggregates. -/
theorem itemFlags_pending (it : EmailItem) (hp : it.status = ItemStatus.pending) :
    itemDone it = false ∧ itemOk it = false ∧ itemErr it = false := by
  simp [itemDone, itemOk, itemErr, hp]

/-- The done count splits into the successful and the failed count. -/
theorem countP_done_eq (l : List EmailItem) :
    l.countP itemDone = l.countP itemOk + l.countP itemErr := by
  induction l with
  | nil => rfl
  | cons x xs ih =>
    simp only [List.countP_cons]
    have hx : (if itemDone x then 1 else 0) =
        (if itemOk x then 1 else 0) + (if itemErr x then 1 else 0) := by
      rcases x with ⟨xid, xe, xs', xr⟩
      cases xs' with
      | pending => rfl
      | processing => rfl
      | done v => cases v <;> rfl
    omega

/-- Counter consistency implies the specification invariant. -/
theorem WF_specInv (s : JobState) (h : WF s) : SpecInv s := by
  obtain ⟨h1, h2, h3, h4⟩ := h
  refine ⟨?_, ?_, h4⟩
  · rw [h1, h2, h3, countP_done_eq]
  · rw [h1]; exact List.countP_le_length itemDone

/-- Marking a pending item as `processing` preserves counter
consistency: the transient status counts in no aggregate. -/
theorem WF_markProcessing (s : JobState) (i : Nat) (it : EmailItem)
    (hit : s.emailsData[i]? = some it) (hp : it.status = ItemStatus.pending)
    (h : WF s) : WF (markProcessing s i it) := by
  obtain ⟨h1, h2, h3, h4⟩ := h
  have hlen : i < s.emailsData.length := (List.getElem?_eq_some.mp hit).1
  obtain ⟨f1, f2, f3⟩ := itemFlags_pending it hp
  have cd := countP_set_comm itemDone s.emailsData i it
    { it with status := ItemStatus.processing } hit
  have co := countP_set_comm itemOk s.emailsData i it
    { it with status := ItemStatus.processing } hit
  have ce := countP_set_comm itemErr s.emailsData i it
    { it with status := ItemStatus.processing } hit
  have fd : itemDone { it with status := ItemStatus.processing } = false := rfl
  have fo : itemOk { it with status := ItemStatus.processing } = false := rfl
  have fe : itemErr { it with status := ItemStatus.processing } = false := rfl
  rw [f1, fd] at cd
  rw [f2, fo] at co
  rw [f3, fe] at ce
  simp only [if_neg Bool.false_ne_true] at cd co ce
  exact ⟨by simp only [markProcessing]; omega,
    by simp only [markProcessing]; omega,
    by simp only [markProcessing]; omega,
    by simp only [markProcessing, List.length_set]; omega⟩

/-- Setting a pending item to a done item raises the done count by
one. -/
theorem countDone_set (l : List EmailItem) (i : Nat) (it : EmailItem) (v : VerifyStatus)
    (res : Option StoredResult) (hit : l[i]? = some it)
    (hp : it.status = ItemStatus.pending) :
    (l.set i { it with status := ItemStatus.done v, result := res }).countP itemDone =
      l.countP itemDone + 1 := by
  have cd := countP_set_comm itemDone l i it
    { it with status := ItemStatus.done v, result := res } hit
  rw [(itemFlags_pending it hp).1, itemDone_done] at cd
  simp at cd
  omega

/-- Setting a pending item to a done `error` item raises the failed
count by one and leaves the successful count unchanged. -/
theorem countErrOk_set_error (l : List EmailItem) (i : Nat) (it : EmailItem)
    (res : Option StoredResult) (hit : l[i]? = some it)
    (hp : it.status = ItemStatus.pending) :
    (l.set i { it with status := ItemStatus.done VerifyStatus.error
                       result := res }).countP itemErr = l.countP itemErr + 1 ∧
    (l.set i { it with status := ItemStatus.done VerifyStatus.error
                       result := res }).countP itemOk = l.countP itemOk := by
  have ce := countP_set_comm itemErr l i it
    { it with status := ItemStatus.done VerifyStatus.error, result := res } hit
  have co := countP_set_comm itemOk l i it
    { it with status := ItemStatus.done VerifyStatus.error, result := res } hit
  rw [(itemFlags_pending it hp).2.2, itemErr_done] at ce
  rw [(itemFlags_pending it hp).2.1, itemOk_done] at co
  simp at ce co
  omega

/-- Setting a pending item to a done item with a non-error outcome
raises the successful count by one and leaves the failed count
unchanged. -/
theorem countErrOk_set_ok (l : List EmailItem) (i : Nat) (it : EmailItem) (v : VerifyStatus)
    (res : Option StoredResult) (hit : l[i]? = some it)
    (hp : it.status = ItemStatus.pending) (hv : v ≠ VerifyStatus.error) :
    (l.set i { it with status := ItemStatus.done v, result := res }).countP itemErr =
      l.countP itemErr ∧
    (l.set i { it with status := ItemStatus.done v, result := res }).countP itemOk =
      l.countP itemOk + 1 := by
  have ce := countP_set_comm itemErr l i it
    { it with status := ItemStatus.done v, result := res } hit
  have co := countP_set_comm itemOk l i it
    { it with status := ItemStatus.done v, result := res } hit
  rw [(itemFlags_pending it hp).2.2, itemErr_done] at ce
  rw [(itemFlags_pending it hp).2.1, itemOk_done] at co
  simp [hv] at ce co
  omega

/-- Recording the outcome of a pending item preserves counter
consistency: the processed count and exactly one of the success or
failure counts rise by one, matching the one item that became done. -/
theorem WF_recordOutcome (s : JobState) (i : Nat) (it : EmailItem) (o : LookupOutcome)
    (hit : s.emailsData[i]? = some it) (hp : it.status = ItemStatus.pending)
    (h : WF s) : WF (recordOutcome (markProcessing s i it) i it o) := by
  obtain ⟨h1, h2, h3, h4⟩ := h
  have hlen : i < s.emailsData.length := (List.getElem?_eq_some.mp hit).1
  cases o with
  | ok r =>
    have cd := countDone_set s.emailsData i it r.status (some (storedOfVerify r)) hit hp
    by_cases hr : r.status = VerifyStatus.error
    · have hco := countErrOk_set_error s.emailsData i it (some (storedOfVerify r))
        hit hp
      rw [hr] at cd
      refine ⟨?_, ?_, ?_, ?_⟩ <;>
        simp only [recordOutcome, markProcessing, List.set_set, List.length_set, hr,
          eq_self_iff_true, if_true] <;> omega
    · have hco := countErrOk_set_ok s.emailsData i it r.status (some (storedOfVerify r))
        hit hp hr
      refine ⟨?_, ?_, ?_, ?_⟩ <;>
        simp only [recordOutcome, markProcessing, List.set_set, List.length_set,
          if_neg hr] <;> omega
  | exn =>
    have cd := countDone_set s.emailsData i it VerifyStatus.error
      (some processingFailedResult) hit hp
    have hco := countErrOk_set_error s.emailsData i it (some processingFailedResult) hit hp
    refine ⟨?_, ?_, ?_, ?_⟩ <;>
      simp only [recordOutcome, markProcessing, List.set_set, List.length_set] <;> omega

/-- Reading a just-set valid index gives the new element. -/
theorem getElem?_set_self_of_lt {α : Type} (l : List α) (i : Nat) (a : α)
    (h : i < l.length) : (l.set i a)[i]? = some a := by
  rw [List.getElem?_set_self']
  simp [List.getElem?_eq_getElem h]

/-- Marking an item leaves every other index unchanged. -/
theorem markProcessing_getElem_ne (s : JobState) (i : Nat) (it : EmailItem) (j : Nat)
    (hne : i ≠ j) : (markProcessing s i it).emailsData[j]? = s.emailsData[j]? := by
  simp [markProcessing, List.getElem?_set_ne hne]

/-- Recording an outcome leaves every other index unchanged. -/
theorem recordOutcome_getElem_ne (s : JobState) (i : Nat) (it : EmailItem)
    (o : LookupOutcome) (j : Nat) (hne : i ≠ j) :
    (recordOutcome s i it o).emailsData[j]? = s.emailsData[j]? := by
  cases o <;> simp [recordOutcome, List.getElem?_set_ne hne]

/-- A full iteration on item `i` leaves every other index unchanged. -/
theorem step_getElem_ne (s : JobState) (i : Nat) (it : EmailItem)
    (o : LookupOutcome) (j : Nat) (hne : i ≠ j) :
    (recordOutcome (markProcessing s i it) i it o).emailsData[j]? = s.emailsData[j]? := by
  rw [recordOutcome_getElem_ne _ _ _ _ _ hne, markProcessing_getElem_ne _ _ _ _ hne]

/-- A full iteration on item `i` writes the applied outcome at `i`. -/
theorem step_getElem_self (s : JobState) (i : Nat) (it : EmailItem)
    (o : LookupOutcome) (hlen : i < s.emailsData.length) :
    (recordOutcome (markProcessing s i it) i it o).emailsData[i]? =
      some (applyOutcome o it) := by
  cases o <;>
    simp [recordOutcome, markProcessing, applyOutcome, List.set_set,
      getElem?_set_self_of_lt _ _ _ hlen]

/-- A full iteration preserves the item-list length. -/
theorem step_length (s : JobState) (i : Nat) (it : EmailItem) (o : LookupOutcome) :
    (recordOutcome (markProcessing s i it) i it o).emailsData.length =
      s.emailsData.length := by
  cases o <;> simp [recordOutcome, markProcessing, List.length_set]

/-- An applied outcome is never pending. -/
theorem applyOutcome_ne_pending (o : LookupOutcome) (it : EmailItem) :
    (applyOutcome o it).status ≠ ItemStatus.pending := by
  cases o <;> simp [applyOutcome]

/-- Every state of the worker loop, intermediate or final, satisfies
counter consistency when the input does. -/
theorem processFrom_WF (lookup : Nat → LookupOutcome) :
    ∀ (fuel i : Nat) (s : JobState), WF s →
      WF (processFrom lookup fuel i s).1 ∧
      ∀ t ∈ (processFrom lookup fuel i s).2, WF t := by
  intro fuel
  induction fuel with
  | zero =>
    intro i s hs
    exact ⟨hs, by intro t ht; simp [processFrom] at ht⟩
  | succ fuel ih =>
    intro i s hs
    cases hit : s.emailsData[i]? with
    | none =>
      refine ⟨by simpa [processFrom, hit] using hs, ?_⟩
      intro t ht
      simp [processFrom, hit] at ht
    | some it =>
      by_cases hp : it.status = ItemStatus.pending
      · have h1 := WF_markProcessing s i it hit hp hs
        have h2 := WF_recordOutcome s i it (lookup i) hit hp hs
        have hr := ih (i + 1) (recordOutcome (markProcessing s i it) i it (lookup i)) h2
        constructor
        · simpa [processFrom, hit, hp] using hr.1
        · intro t ht
          simp only [processFrom, hit, hp, if_true, List.mem_cons] at ht
          rcases ht with rfl | rfl | ht
          · exact h1
          · exact h2
          · exact hr.2 t ht
      · have hr := ih (i + 1) s hs
        constructor
        · simpa [processFrom, hit, hp] using hr.1
        · intro t ht
          simp only [processFrom, hit, hp, if_false] at ht
          exact hr.2 t ht

/-- The worker loop from index `i` never changes an index below `i`. -/
theorem processFrom_frame_lt (lookup : Nat → LookupOutcome) :
    ∀ (fuel i : Nat) (s : JobState) (j : Nat), j < i →
      (processFrom lookup fuel i s).1.emailsData[j]? = s.emailsData[j]? ∧
      ∀ t ∈ (processFrom lookup fuel i s).2, t.emailsData[j]? = s.emailsData[j]? := by
  intro fuel
  induction fuel with
  | zero =>
    intro i s j _
    exact ⟨rfl, by intro t ht; simp [processFrom] at ht⟩
  | succ fuel ih =>
    intro i s j hj
    cases hit : s.emailsData[i]? with
    | none =>
      refine ⟨by simp [processFrom, hit], ?_⟩
      intro t ht
      simp [processFrom, hit] at ht
    | some it =>
      have hne : i ≠ j := by omega
      by_cases hp : it.status = ItemStatus.pending
      · have hstep := step_getElem_ne s i it (lookup i) j hne
        have hr := ih (i + 1) (recordOutcome (markProcessing s i it) i it (lookup i)) j
          (by omega)
        constructor
        · rw [show (processFrom lookup (Nat.succ fuel) i s).1 =
              (processFrom lookup fuel (i + 1)
                (recordOutcome (markProcessing s i it) i it (lookup i))).1 by
              simp [processFrom, hit, hp]]
          rw [hr.1, hstep]
        · intro t ht
          simp only [processFrom, hit, hp, if_true, List.mem_cons] at ht
          rcases ht with rfl | rfl | ht
          · exact markProcessing_getElem_ne s i it j hne
          · exact hstep
          · rw [hr.2 t ht, hstep]
      · have hr := ih (i + 1) s j (by omega)
        constructor
        · rw [show (processFrom lookup (Nat.succ fuel) i s).1 =
              (processFrom lookup fuel (i + 1) s).1 by simp [processFrom, hit, hp]]
          exact hr.1
        · intro t ht
          simp only [processFrom, hit, hp, if_false] at ht
          exact hr.2 t ht

/-- The worker loop never changes an item that is not pending. -/
theorem processFrom_frame_nonpending (lookup : Nat → LookupOutcome) :
    ∀ (fuel i : Nat) (s : JobState) (j : Nat) (jt : EmailItem),
      s.emailsData[j]? = some jt → jt.status ≠ ItemStatus.pending →
      (processFrom lookup fuel i s).1.emailsData[j]? = some jt ∧
      ∀ t ∈ (processFrom lookup fuel i s).2, t.emailsData[j]? = some jt := by
  intro fuel
  induction fuel with
  | zero =>
    intro i s j jt hj _
    exact ⟨hj, by intro t ht; simp [processFrom] at ht⟩
  | succ fuel ih =>
    intro i s j jt hj hjp
    cases hit : s.emailsData[i]? with
    | none =>
      refine ⟨by simpa [processFrom, hit] using hj, ?_⟩
      intro t ht
      simp [processFrom, hit] at ht
    | some it =>
      by_cases hp : it.status = ItemStatus.pending
      · have hne : i ≠ j := by
          intro hij
          rw [hij, hj] at hit
          exact hjp (by rw [Option.some_inj.mp hit]; exact hp)
        have hstep := step_getElem_ne s i it (lookup i) j hne
        have hr := ih (i + 1) (recordOutcome (markProcessing s i it) i it (lookup i)) j jt
          (by rw [hstep]; exact hj) hjp
        constructor
        · rw [show (processFrom lookup (Nat.succ fuel) i s).1 =
              (processFrom lookup fuel (i + 1)
                (recordOutcome (markProcessing s i it) i it (lookup i))).1 by
              simp [processFrom, hit, hp]]
          exact hr.1
        · intro t ht
          simp only [processFrom, hit, hp, if_true, List.mem_cons] at ht
          rcases ht with rfl | rfl | ht
          · rw [markProcessing_getElem_ne s i it j hne]; exact hj
          · rw [hstep]; exact hj
          · exact hr.2 t ht
      · have hr := ih (i + 1) s j jt hj hjp
        constructor
        · rw [show (processFrom lookup (Nat.succ fuel) i s).1 =
              (processFrom lookup fuel (i + 1) s).1 by simp [processFrom, hit, hp]]
          exact hr.1
        · intro t ht
          simp only [processFrom, hit, hp, if_false] at ht
          exact hr.2 t ht

/-- An originally pending item at or after the start index ends the loop
carrying its applied lookup outcome. -/
theorem processFrom_final_pending (lookup : Nat → LookupOutcome) :
    ∀ (fuel i : Nat) (s : JobState), s.emailsData.length ≤ i + fuel →
      ∀ (j : Nat) (jt : EmailItem), i ≤ j → s.emailsData[j]? = some jt →
        jt.status = ItemStatus.pending →
        (processFrom lookup fuel i s).1.emailsData[j]? =
          some (applyOutcome (lookup j) jt) := by
  intro fuel
  induction fuel with
  | zero =>
    intro i s hfuel j jt hij hj _
    have : j < s.emailsData.length := (List.getElem?_eq_some.mp hj).1
    omega
  | succ fuel ih =>
    intro i s hfuel j jt hij hj hjp
    have hjlen : j < s.emailsData.length := (List.getElem?_eq_some.mp hj).1
    cases hit : s.emailsData[i]? with
    | none =>
      have : s.emailsData.length ≤ i := List.getElem?_eq_none_iff.mp hit
      omega
    | some it =>
      have hilen : i < s.emailsData.length := (List.getElem?_eq_some.mp hit).1
      by_cases hp : it.status = ItemStatus.pending
      · rw [show (processFrom lookup (Nat.succ fuel) i s).1 =
            (processFrom lookup fuel (i + 1)
              (recordOutcome (markProcessing s i it) i it (lookup i))).1 by
            simp [processFrom, hit, hp]]
        by_cases hij2 : i = j
        · subst hij2
          have hjt : jt = it := by
            rw [hit] at hj
            exact (Option.some_inj.mp hj).symm
          subst hjt
          have hdone := step_getElem_self s i jt (lookup i) hilen
          exact (processFrom_frame_nonpending lookup fuel (i + 1)
            (recordOutcome (markProcessing s i jt) i jt (lookup i)) i
            (applyOutcome (lookup i) jt) hdone
            (applyOutcome_ne_pending (lookup i) jt)).1
        · have hstep := step_getElem_ne s i it (lookup i) j hij2
          exact ih (i + 1) (recordOutcome (markProcessing s i it) i it (lookup i))
            (by rw [step_length]; omega) j jt (by omega) (by rw [hstep]; exact hj) hjp
      · rw [show (processFrom lookup (Nat.succ fuel) i s).1 =
            (processFrom lookup fuel (i + 1) s).1 by simp [processFrom, hit, hp]]
        have hij2 : i ≠ j := by
          intro h
          rw [h, hj] at hit
          exact hp (by rw [← Option.some_inj.mp hit]; exact hjp)
        exact ih (i + 1) s (by omega) j jt (by omega) hj hjp

/-- The loop reaching a pending item emits two consecutive snapshots: the
processing mark with the cursor at the item, followed by the recorded
outcome. -/
theorem processFrom_adjacent (lookup : Nat → LookupOutcome) :
    ∀ (fuel i : Nat) (s : JobState), s.emailsData.length ≤ i + fuel →
      ∀ (j : Nat) (jt : EmailItem), i ≤ j → s.emailsData[j]? = some jt →
        jt.status = ItemStatus.pending →
        ∃ (n : Nat) (s1 : JobState),
          (processFrom lookup fuel i s).2[n]? = some s1 ∧
          (processFrom lookup fuel i s).2[n + 1]? =
            some (recordOutcome s1 j jt (lookup j)) ∧
          s1.currentIndex = j ∧
          s1.emailsData[j]? = some { jt with status := ItemStatus.processing } := by
  intro fuel
  induction fuel with
  | zero =>
    intro i s hfuel j jt hij hj _
    have : j < s.emailsData.length := (List.getElem?_eq_some.mp hj).1
    omega
  | succ fuel ih =>
    intro i s hfuel j jt hij hj hjp
    have hjlen : j < s.emailsData.length := (List.getElem?_eq_some.mp hj).1
    cases hit : s.emailsData[i]? with
    | none =>
      have : s.emailsData.length ≤ i := List.getElem?_eq_none_iff.mp hit
      omega
    | some it =>
      have hilen : i < s.emailsData.length := (List.getElem?_eq_some.mp hit).1
      by_cases hp : it.status = ItemStatus.pending
      · by_cases hij2 : i = j
        · subst hij2
          have hjt : jt = it := by
            rw [hit] at hj
            exact (Option.some_inj.mp hj).symm
          subst hjt
          refine ⟨0, markProcessing s i jt, ?_, ?_, rfl, ?_⟩
          · simp [processFrom, hit, hp]
          · simp [processFrom, hit, hp]
          · simp only [markProcessing]
            exact getElem?_set_self_of_lt _ _ _ hilen
        · have hstep := step_getElem_ne s i it (lookup i) j hij2
          obtain ⟨n, s1, hn, hn1, hc, hi⟩ :=
            ih (i + 1) (recordOutcome (markProcessing s i it) i it (lookup i))
              (by rw [step_length]; omega) j jt (by omega)
              (by rw [hstep]; exact hj) hjp
          refine ⟨n + 2, s1, ?_, ?_, hc, hi⟩
          · rw [show (processFrom lookup (Nat.succ fuel) i s).2 =
                markProcessing s i it ::
                  recordOutcome (markProcessing s i it) i it (lookup i) ::
                  (processFrom lookup fuel (i + 1)
                    (recordOutcome (markProcessing s i it) i it (lookup i))).2 by
                simp [processFrom, hit, hp]]
            rw [List.getElem?_cons_succ, List.getElem?_cons_succ]
            exact hn
          · rw [show (processFrom lookup (Nat.succ fuel) i s).2 =
                markProcessing s i it ::
                  recordOutcome (markProcessing s i it) i it (lookup i) ::
                  (processFrom lookup fuel (i + 1)
                    (recordOutcome (markProcessing s i it) i it (lookup i))).2 by
                simp [processFrom, hit, hp]]
            rw [List.getElem?_cons_succ, List.getElem?_cons_succ]
            exact hn1
      · have hij2 : i ≠ j := by
          intro h
          rw [h, hj] at hit
          exact hp (by rw [← Option.some_inj.mp hit]; exact hjp)
        obtain ⟨n, s1, hn, hn1, hc, hi⟩ :=
          ih (i + 1) s (by omega) j jt (by omega) hj hjp
        refine ⟨n, s1, ?_, ?_, hc, hi⟩
        · rw [show (processFrom lookup (Nat.succ fuel) i s).2 =
              (processFrom lookup fuel (i + 1) s).2 by simp [processFrom, hit, hp]]
          exact hn
        · rw [show (processFrom lookup (Nat.succ fuel) i s).2 =
              (processFrom lookup fuel (i + 1) s).2 by simp [processFrom, hit, hp]]
          exact hn1

/-- The worker counts a returned result as failed exactly when its
status is `error`. -/
theorem outcomeIsError_ok (r : VerifyResult) :
    outcomeIsError (LookupOutcome.ok r) = decide (r.status = VerifyStatus.error) := by
  cases hr : r.status <;> simp [outcomeIsError, hr]

/-- Aggregate counters written by one full iteration. -/
theorem step_counters (s : JobState) (i : Nat) (it : EmailItem) (o : LookupOutcome) :
    (recordOutcome (markProcessing s i it) i it o).processedEmails =
      s.processedEmails + 1 ∧
    (recordOutcome (markProcessing s i it) i it o).successfulVerifications =
      s.successfulVerifications + (if outcomeIsError o then 0 else 1) ∧
    (recordOutcome (markProcessing s i it) i it o).failedVerifications =
      s.failedVerifications + (if outcomeIsError o then 1 else 0) := by
  cases o with
  | exn => simp [recordOutcome, markProcessing, outcomeIsError]
  | ok r =>
    by_cases hr : r.status = VerifyStatus.error <;>
      simp [recordOutcome, markProcessing, outcomeIsError_ok, hr]

/-- Indices other than the processed one keep their pending flag. -/
theorem pendingAt_step_ne (s : JobState) (i : Nat) (it : EmailItem) (o : LookupOutcome)
    (j : Nat) (hne : i ≠ j) :
    pendingAt (recordOutcome (markProcessing s i it) i it o) j = pendingAt s j := by
  unfold pendingAt
  rw [step_getElem_ne s i it o j hne]

/-- Final aggregate counters of the worker loop: each counter rises by
the number of originally pending indices of the remaining range whose
lookup outcome matches it. -/
theorem processFrom_final_counts (lookup : Nat → LookupOutcome) :
    ∀ (fuel i : Nat) (s : JobState), s.emailsData.length ≤ i + fuel →
      (processFrom lookup fuel i s).1.processedEmails =
        s.processedEmails +
          countIdx (fun j => pendingAt s j) i (s.emailsData.length - i) ∧
      (processFrom lookup fuel i s).1.successfulVerifications =
        s.successfulVerifications +
          countIdx (fun j => pendingAt s j && !outcomeIsError (lookup j)) i
            (s.emailsData.length - i) ∧
      (processFrom lookup fuel i s).1.failedVerifications =
        s.failedVerifications +
          countIdx (fun j => pendingAt s j && outcomeIsError (lookup j)) i
            (s.emailsData.length - i) := by
  intro fuel
  induction fuel with
  | zero =>
    intro i s hfuel
    have hz : s.emailsData.length - i = 0 := by omega
    rw [hz]
    simp [processFrom, countIdx]
  | succ fuel ih =>
    intro i s hfuel
    cases hit : s.emailsData[i]? with
    | none =>
      have hlen : s.emailsData.length ≤ i := List.getElem?_eq_none_iff.mp hit
      have hz : s.emailsData.length - i = 0 := by omega
      rw [hz]
      simp [processFrom, hit, countIdx]
    | some it =>
      have hilen : i < s.emailsData.length := (List.getElem?_eq_some.mp hit).1
      have hsub : s.emailsData.length - i =
          Nat.succ (s.emailsData.length - (i + 1)) := by omega
      by_cases hp : it.status = ItemStatus.pending
      · have hpend : pendingAt s i = true := by
          simp [pendingAt, hit, hp]
        have hstep := step_counters s i it (lookup i)
        have hlen2 := step_length s i it (lookup i)
        have hih := ih (i + 1) (recordOutcome (markProcessing s i it) i it (lookup i))
          (by rw [hlen2]; omega)
        rw [hlen2] at hih
        have hfst : (processFrom lookup (Nat.succ fuel) i s).1 =
            (processFrom lookup fuel (i + 1)
              (recordOutcome (markProcessing s i it) i it (lookup i))).1 := by
          simp [processFrom, hit, hp]
        have hg1 : countIdx
            (fun j => pendingAt (recordOutcome (markProcessing s i it) i it (lookup i)) j)
            (i + 1) (s.emailsData.length - (i + 1)) =
            countIdx (fun j => pendingAt s j) (i + 1) (s.emailsData.length - (i + 1)) :=
          countIdx_congr _ _ _ _ (fun j hj1 hj2 => by
            rw [pendingAt_step_ne s i it (lookup i) j (by omega)])
        have hg2 : countIdx
            (fun j => pendingAt (recordOutcome (markProcessing s i it) i it (lookup i)) j &&
              !outcomeIsError (lookup j))
            (i + 1) (s.emailsData.length - (i + 1)) =
            countIdx (fun j => pendingAt s j && !outcomeIsError (lookup j)) (i + 1)
              (s.emailsData.length - (i + 1)) :=
          countIdx_congr _ _ _ _ (fun j hj1 hj2 => by
            rw [pendingAt_step_ne s i it (lookup i) j (by omega)])
        have hg3 : countIdx
            (fun j => pendingAt (recordOutcome (markProcessing s i it) i it (lookup i)) j &&
              outcomeIsError (lookup j))
            (i + 1) (s.emailsData.length - (i + 1)) =
            countIdx (fun j => pendingAt s j && outcomeIsError (lookup j)) (i + 1)
              (s.emailsData.length - (i + 1)) :=
          countIdx_congr _ _ _ _ (fun j hj1 hj2 => by
            rw [pendingAt_step_ne s i it (lookup i) j (by omega)])
        obtain ⟨e1, e2, e3⟩ := hih
        obtain ⟨c1, c2, c3⟩ := hstep
        rw [hfst] at *
        refine ⟨?_, ?_, ?_⟩
        · rw [e1, hg1, c1, hsub]
          simp only [countIdx]
          simp [hpend]
          omega
        · rw [e2, hg2, c2, hsub]
          simp only [countIdx]
          rcases Bool.eq_false_or_eq_true (outcomeIsError (lookup i)) with hoe | hoe <;>
            simp [hoe, hpend] <;> omega
        · rw [e3, hg3, c3, hsub]
          simp only [countIdx]
          rcases Bool.eq_false_or_eq_true (outcomeIsError (lookup i)) with hoe | hoe <;>
            simp [hoe, hpend] <;> omega
      · have hpend : pendingAt s i = false := by
          rcases hst : it.status with _ | _ | v
          · exact absurd hst hp
          · simp [pendingAt, hit, hst]
          · simp [pendingAt, hit, hst]
        have hih := ih (i + 1) s (by omega)
        have hfst : (processFrom lookup (Nat.succ fuel) i s).1 =
            (processFrom lookup fuel (i + 1) s).1 := by
          simp [processFrom, hit, hp]
        obtain ⟨e1, e2, e3⟩ := hih
        rw [hfst]
        refine ⟨?_, ?_, ?_⟩
        · rw [e1, hsub]
          simp only [countIdx]
          simp [hpend]
        · rw [e2, hsub]
          simp only [countIdx]
          simp [hpend]
        · rw [e3, hsub]
          simp only [countIdx]
          simp [hpend]

/-- Unfolding of the final state of a worker run. -/
theorem processJobRun_fst (lookup : Nat → LookupOutcome) (job : JobState) :
    (processJobRun lookup job).1 =
      { (processFrom lookup (job.emailsData.length - job.currentIndex) job.currentIndex
          { job with status := JobStatus.processing }).1 with
        status := JobStatus.completed, completedAt := true } := by
  simp [processJobRun]

/-- Unfolding of the snapshot trace of a worker run. -/
theorem processJobRun_snd (lookup : Nat → LookupOutcome) (job : JobState) :
    (processJobRun lookup job).2 =
      { job with status := JobStatus.processing } ::
        (processFrom lookup (job.emailsData.length - job.currentIndex) job.currentIndex
          { job with status := JobStatus.processing }).2 ++
        [(processJobRun lookup job).1] := by
  simp [processJobRun]

/-- A worker run unconditionally ends with the completion write. -/
theorem processJobRun_completes (lookup : Nat → LookupOutcome) (job : JobState) :
    (processJobRun lookup job).1.status = JobStatus.completed ∧
    (processJobRun lookup job).1.completedAt = true := by
  rw [processJobRun_fst]
  exact ⟨rfl, rfl⟩

/-- A freshly created job is counter consistent. -/
theorem WF_createJob (emails : List String) : WF (createJob emails) := by
  have hz : ∀ (p : EmailItem → Bool),
      (∀ (j : Nat) (e : String),
        p { id := j, email := strTrim e, status := ItemStatus.pending, result := none } = false) →
      (createJob emails).emailsData.countP p = 0 := by
    intro p hp
    rw [List.countP_eq_zero]
    intro a ha
    rw [show (createJob emails).emailsData = emails.mapIdx (fun i e =>
        { id := i, email := strTrim e, status := ItemStatus.pending, result := none }) from rfl,
      List.mapIdx_eq_enum_map] at ha
    obtain ⟨⟨i, e⟩, _, rfl⟩ := List.mem_map.mp ha
    simp [Function.uncurry, hp]
  refine ⟨(hz itemDone (fun j e => rfl)).symm, (hz itemOk (fun j e => rfl)).symm,
    (hz itemErr (fun j e => rfl)).symm, Nat.zero_le _⟩

/-- C1: for every job, at every point during and after a Batch Worker
run, the aggregate counters satisfy
`processedCount = successCount + failCount` and
`processedCount ≤ len(items)`, and the cursor satisfies
`0 ≤ cursor ≤ len(items)`.  The quantification over jobs is over the
reachable, counter-consistent states `WF`: the first conjunct shows `WF`
at creation, the second that a worker run keeps `WF` and that every
persisted snapshot of the run, the final state included, satisfies the
claimed invariant. -/
theorem claim1_counters_invariant :
    (∀ (emails : List String), WF (createJob emails)) ∧
    (∀ (lookup : Nat → LookupOutcome) (job : JobState), WF job →
      (∀ t ∈ (processJobRun lookup job).2, SpecInv t) ∧
      WF (processJobRun lookup job).1) := by
  refine ⟨WF_createJob, ?_⟩
  intro lookup job hwf
  have h0 : WF { job with status := JobStatus.processing } := hwf
  obtain ⟨hfin, htr⟩ := processFrom_WF lookup
    (job.emailsData.length - job.currentIndex) job.currentIndex
    { job with status := JobStatus.processing } h0
  have hfin2 : WF (processJobRun lookup job).1 := by
    rw [processJobRun_fst]
    exact hfin
  refine ⟨?_, hfin2⟩
  intro t ht
  rw [processJobRun_snd] at ht
  rcases List.mem_cons.mp ht with rfl | ht2
  · exact WF_specInv _ h0
  · rcases List.mem_append.mp ht2 with ht3 | ht4
    · exact WF_specInv _ (htr t ht3)
    · rw [List.mem_singleton.mp ht4]
      exact WF_specInv _ hfin2

/-- Witness for C1 at a concrete job and oracle. -/
theorem claim1_witness :
    WF sampleJob ∧ (∀ t ∈ (processJobRun lookupOkAll sampleJob).2, SpecInv t) :=
  ⟨by decide, (claim1_counters_invariant.2 lookupOkAll sampleJob (by decide)).1⟩

/-- C2: re-invoking the Batch Worker on a job whose cursor is `k` never
changes any item with index below `k`, and every item whose status is
not `pending` is skipped unchanged; both facts hold in every persisted
state of the run, its final state included, so a duplicate invocation is
safe. -/
theorem claim2_resume_frame (lookup : Nat → LookupOutcome) (job : JobState) :
    ∀ t ∈ (processJobRun lookup job).2,
      (∀ j : Nat, j < job.currentIndex → t.emailsData[j]? = job.emailsData[j]?) ∧
      (∀ (j : Nat) (jt : EmailItem), job.emailsData[j]? = some jt →
        jt.status ≠ ItemStatus.pending → t.emailsData[j]? = some jt) := by
  intro t ht
  rw [processJobRun_snd] at ht
  constructor
  · intro j hj
    rcases List.mem_cons.mp ht with rfl | ht2
    · rfl
    · rcases List.mem_append.mp ht2 with ht3 | ht4
      · exact (processFrom_frame_lt lookup (job.emailsData.length - job.currentIndex)
          job.currentIndex { job with status := JobStatus.processing } j hj).2 t ht3
      · rw [List.mem_singleton.mp ht4, processJobRun_fst]
        exact (processFrom_frame_lt lookup (job.emailsData.length - job.currentIndex)
          job.currentIndex { job with status := JobStatus.processing } j hj).1
  · intro j jt hjt hjp
    rcases List.mem_cons.mp ht with rfl | ht2
    · exact hjt
    · rcases List.mem_append.mp ht2 with ht3 | ht4
      · exact (processFrom_frame_nonpending lookup (job.emailsData.length - job.currentIndex)
          job.currentIndex { job with status := JobStatus.processing } j jt hjt hjp).2 t ht3
      · rw [List.mem_singleton.mp ht4, processJobRun_fst]
        exact (processFrom_frame_nonpending lookup (job.emailsData.length - job.currentIndex)
          job.currentIndex { job with status := JobStatus.processing } j jt hjt hjp).1

/-- Witness for C2: the final state of a re-invocation on the resumed
job keeps item 0 exactly as it was. -/
theorem claim2_witness :
    (processJobRun lookupExnAll resumedJob).1 ∈ (processJobRun lookupExnAll resumedJob).2 ∧
    (processJobRun lookupExnAll resumedJob).1.emailsData[0]? = resumedJob.emailsData[0]? :=
  ⟨by decide,
    (claim2_resume_frame lookupExnAll resumedJob
      (processJobRun lookupExnAll resumedJob).1 (by decide)).1 0 (by decide)⟩

/-- A snapshot of the loop trace appears in the full run trace one
position later (after the initial `processing` write). -/
theorem trace_lift (lookup : Nat → LookupOutcome) (job : JobState) (n : Nat) (t : JobState)
    (h : (processFrom lookup (job.emailsData.length - job.currentIndex) job.currentIndex
        { job with status := JobStatus.processing }).2[n]? = some t) :
    (processJobRun lookup job).2[n + 1]? = some t := by
  rw [processJobRun_snd]
  show ({ job with status := JobStatus.processing } ::
    ((processFrom lookup (job.emailsData.length - job.currentIndex) job.currentIndex
      { job with status := JobStatus.processing }).2 ++
      [(processJobRun lookup job).1]))[n + 1]? = some t
  rw [List.getElem?_cons_succ,
    List.getElem?_append_left (List.getElem?_eq_some.mp h).1]
  exact h

/-- C3: when the lookup call itself throws at a pending item, the worker
records that item with status `error` and the generic reason, the next
persisted snapshot raises the processed and failed counters by one and
moves the cursor past the item, the job still completes, and every later
pending item is still processed with its own outcome. -/
theorem claim3_exception_isolated (lookup : Nat → LookupOutcome) (job : JobState)
    (i : Nat) (it : EmailItem)
    (hc : job.currentIndex ≤ i) (hi : job.emailsData[i]? = some it)
    (hp : it.status = ItemStatus.pending) (he : lookup i = LookupOutcome.exn) :
    (processJobRun lookup job).1.emailsData[i]? =
      some { it with status := ItemStatus.done VerifyStatus.error
                     result := some processingFailedResult } ∧
    (∃ (n : Nat) (s1 s2 : JobState),
      (processJobRun lookup job).2[n]? = some s1 ∧
      (processJobRun lookup job).2[n + 1]? = some s2 ∧
      s1.currentIndex = i ∧ s2.currentIndex = i + 1 ∧
      s2.processedEmails = s1.processedEmails + 1 ∧
      s2.failedVerifications = s1.failedVerifications + 1 ∧
      s2.successfulVerifications = s1.successfulVerifications) ∧
    (processJobRun lookup job).1.status = JobStatus.completed ∧
    (∀ (j : Nat) (jt : EmailItem), i < j → job.emailsData[j]? = some jt →
      jt.status = ItemStatus.pending →
      (processJobRun lookup job).1.emailsData[j]? = some (applyOutcome (lookup j) jt)) := by
  have hilen : i < job.emailsData.length := (List.getElem?_eq_some.mp hi).1
  have hfuel : job.emailsData.length ≤
      job.currentIndex + (job.emailsData.length - job.currentIndex) := by omega
  refine ⟨?_, ?_, (processJobRun_completes lookup job).1, ?_⟩
  · rw [processJobRun_fst]
    have hfp := processFrom_final_pending lookup (job.emailsData.length - job.currentIndex)
      job.currentIndex { job with status := JobStatus.processing } hfuel i it hc hi hp
    rw [he] at hfp
    simpa [applyOutcome] using hfp
  · obtain ⟨n, s1, hn, hn1, hcur, _⟩ := processFrom_adjacent lookup
      (job.emailsData.length - job.currentIndex) job.currentIndex
      { job with status := JobStatus.processing } hfuel i it hc hi hp
    rw [he] at hn1
    have hlen1 : n < (processFrom lookup (job.emailsData.length - job.currentIndex)
        job.currentIndex { job with status := JobStatus.processing }).2.length :=
      (List.getElem?_eq_some.mp hn).1
    have hlen2 : n + 1 < (processFrom lookup (job.emailsData.length - job.currentIndex)
        job.currentIndex { job with status := JobStatus.processing }).2.length :=
      (List.getElem?_eq_some.mp hn1).1
    refine ⟨n + 1, s1, recordOutcome s1 i it LookupOutcome.exn, ?_, ?_, hcur, ?_, ?_, ?_, ?_⟩
    · exact trace_lift lookup job n s1 hn
    · exact trace_lift lookup job (n + 1) (recordOutcome s1 i it LookupOutcome.exn) hn1
    · simp [recordOutcome]
    · simp [recordOutcome]
    · simp [recordOutcome]
    · simp [recordOutcome]
  · intro j jt hij hjt hjp
    rw [processJobRun_fst]
    exact processFrom_final_pending lookup (job.emailsData.length - job.currentIndex)
      job.currentIndex { job with status := JobStatus.processing } hfuel j jt
      (by omega) hjt hjp

/-- Witness for C3 at the sample job with a throwing oracle. -/
theorem claim3_witness :
    (processJobRun lookupExnAll sampleJob).1.emailsData[0]? =
      some { pendingItem0 with status := ItemStatus.done VerifyStatus.error
                               result := some processingFailedResult } ∧
    (processJobRun lookupExnAll sampleJob).1.status = JobStatus.completed := by
  have h := claim3_exception_isolated lookupExnAll sampleJob 0 pendingItem0
    (by decide) (by decide) (by decide) (by decide)
  exact ⟨h.1, h.2.2.1⟩

/-- Item lookup in a freshly created job. -/
theorem createJob_getElem (emails : List String) (j : Nat) :
    (createJob emails).emailsData[j]? = emails[j]?.map (fun e =>
      { id := j, email := strTrim e, status := ItemStatus.pending, result := none }) := by
  have hd : (createJob emails).emailsData = emails.mapIdx (fun i e =>
      { id := i, email := strTrim e, status := ItemStatus.pending, result := none }) := rfl
  rw [hd, List.mapIdx_eq_enum_map, List.getElem?_map, List.getElem?_enum]
  cases emails[j]? <;> simp [Function.uncurry]

/-- The item list of a fresh job has one entry per submitted email. -/
theorem createJob_length (emails : List String) :
    (createJob emails).emailsData.length = emails.length := by
  simp [createJob]

/-- Every index of a fresh job is pending. -/
theorem createJob_pendingAt (emails : List String) (j : Nat) (hj : j < emails.length) :
    pendingAt (createJob emails) j = true := by
  unfold pendingAt
  rw [createJob_getElem]
  rcases hej : emails[j]? with _ | e
  · exact absurd (List.getElem?_eq_none_iff.mp hej) (by omega)
  · simp

/-- Final counters of a run on a fresh job: every item is pending, so
the processed count is the item count and the success and failure counts
partition the indices by their lookup outcome. -/
theorem run_counts_fresh (lookup : Nat → LookupOutcome) (job : JobState)
    (hc : job.currentIndex = 0) (hz1 : job.processedEmails = 0)
    (hz2 : job.successfulVerifications = 0) (hz3 : job.failedVerifications = 0)
    (hpend : ∀ j, j < job.emailsData.length → pendingAt job j = true) :
    (processJobRun lookup job).1.processedEmails = job.emailsData.length ∧
    (processJobRun lookup job).1.successfulVerifications =
      (List.range job.emailsData.length).countP (fun j => !outcomeIsError (lookup j)) ∧
    (processJobRun lookup job).1.failedVerifications =
      (List.range job.emailsData.length).countP (fun j => outcomeIsError (lookup j)) := by
  rcases job with ⟨st, tot, items, cur, pr, su, fa, em, ca⟩
  dsimp only at hc hz1 hz2 hz3 hpend ⊢
  subst hc
  subst hz1
  subst hz2
  subst hz3
  have hfuel : (items.length : Nat) ≤ 0 + (items.length - 0) := by omega
  obtain ⟨e1, e2, e3⟩ := processFrom_final_counts lookup (items.length - 0) 0
    ⟨JobStatus.processing, tot, items, 0, 0, 0, 0, em, ca⟩ hfuel
  dsimp only at e1 e2 e3
  rw [Nat.sub_zero] at e1 e2 e3
  have hpend0 : ∀ j, j < items.length →
      pendingAt (⟨JobStatus.processing, tot, items, 0, 0, 0, 0, em, ca⟩ : JobState) j =
        true := fun j hj => hpend j hj
  have hcnt1 : countIdx
      (fun j => pendingAt (⟨JobStatus.processing, tot, items, 0, 0, 0, 0, em, ca⟩ :
        JobState) j) 0 items.length = items.length := by
    rw [countIdx_congr _ (fun _ => true) items.length 0
      (fun j hj1 hj2 => hpend0 j (by omega))]
    exact countIdx_const_true items.length 0
  have hcnt2 : countIdx
      (fun j => pendingAt (⟨JobStatus.processing, tot, items, 0, 0, 0, 0, em, ca⟩ :
        JobState) j && !outcomeIsError (lookup j)) 0 items.length =
      (List.range items.length).countP (fun j => !outcomeIsError (lookup j)) := by
    rw [countIdx_congr _ (fun j => !outcomeIsError (lookup j)) items.length 0
      (fun j hj1 hj2 => by rw [hpend0 j (by omega)]; simp)]
    exact countIdx_eq_range _ items.length
  have hcnt3 : countIdx
      (fun j => pendingAt (⟨JobStatus.processing, tot, items, 0, 0, 0, 0, em, ca⟩ :
        JobState) j && outcomeIsError (lookup j)) 0 items.length =
      (List.range items.length).countP (fun j => outcomeIsError (lookup j)) := by
    rw [countIdx_congr _ (fun j => outcomeIsError (lookup j)) items.length 0
      (fun j hj1 hj2 => by rw [hpend0 j (by omega)]; simp)]
    exact countIdx_eq_range _ items.length
  rw [hcnt1] at e1
  rw [hcnt2] at e2
  rw [hcnt3] at e3
  rw [processJobRun_fst]
  dsimp only
  rw [Nat.sub_zero]
  exact ⟨by omega, by omega, by omega⟩

/-- C4: a Batch Worker run on a freshly created job drains every item
and ends `completed` with `completedAt` set, with `successCount` the
number of items whose outcome is not `error` and `failCount` the number
of items whose outcome is `error`; in particular the job with one verify
item whose lookup times out ends with `successCount = 0`,
`failCount = 1`, status `completed`. -/
theorem claim4_drain_counts :
    (∀ (lookup : Nat → LookupOutcome) (emails : List String),
      (processJobRun lookup (createJob emails)).1.status = JobStatus.completed ∧
      (processJobRun lookup (createJob emails)).1.completedAt = true ∧
      (processJobRun lookup (createJob emails)).1.processedEmails = emails.length ∧
      (processJobRun lookup (createJob emails)).1.successfulVerifications =
        (List.range emails.length).countP (fun j => !outcomeIsError (lookup j)) ∧
      (processJobRun lookup (createJob emails)).1.failedVerifications =
        (List.range emails.length).countP (fun j => outcomeIsError (lookup j))) ∧
    ((processJobRun timeoutLookup (createJob ["x@y.z"])).1.successfulVerifications = 0 ∧
     (processJobRun timeoutLookup (createJob ["x@y.z"])).1.failedVerifications = 1 ∧
     (processJobRun timeoutLookup (createJob ["x@y.z"])).1.status = JobStatus.completed) := by
  refine ⟨?_, by decide, by decide, by decide⟩
  intro lookup emails
  have h := run_counts_fresh lookup (createJob emails) rfl rfl rfl rfl
    (fun j hj => createJob_pendingAt emails j (by
      rw [createJob_length] at hj
      exact hj))
  rw [createJob_length] at h
  exact ⟨(processJobRun_completes lookup (createJob emails)).1,
    (processJobRun_completes lookup (createJob emails)).2, h.1, h.2.1, h.2.2⟩

/-- Per-index description of the stop update. -/
theorem stopAll_getElem (uid : String) (now : Nat) (jobs : List StoredJob) (k : Nat) :
    ((stopAll (some uid) now jobs).1)[k]? =
      (jobs[k]?).map (fun j => if stopTargets uid j then stopJobUpdate now j else j) := by
  simp [stopAll, List.getElem?_map]

/-- A row the stop filter does not select is left unchanged. -/
theorem stopAll_frame (uid : String) (now : Nat) (jobs : List StoredJob) (k : Nat)
    (j : StoredJob) (hk : jobs[k]? = some j) (h : stopTargets uid j = false) :
    ((stopAll (some uid) now jobs).1)[k]? = some j := by
  rw [stopAll_getElem, hk]
  simp [h]

/-- A row the stop filter selects receives the stop update. -/
theorem stopAll_effect (uid : String) (now : Nat) (jobs : List StoredJob) (k : Nat)
    (j : StoredJob) (hk : jobs[k]? = some j) (h : stopTargets uid j = true) :
    ((stopAll (some uid) now jobs).1)[k]? = some (stopJobUpdate now j) := by
  rw [stopAll_getElem, hk]
  simp [h]

/-- Terminal rows are never selected by the stop filter. -/
theorem stopTargets_terminal (uid : String) (j : StoredJob)
    (h : j.state.status = JobStatus.completed ∨ j.state.status = JobStatus.failed) :
    stopTargets uid j = false := by
  rcases h with h | h <;> simp [stopTargets, isActiveStatus, h]

/-- Active rows of the owner are selected by the stop filter. -/
theorem stopTargets_active (uid : String) (j : StoredJob) (hu : j.userId = uid)
    (h : j.state.status = JobStatus.pending ∨ j.state.status = JobStatus.processing) :
    stopTargets uid j = true := by
  rcases h with h | h <;> simp [stopTargets, isActiveStatus, hu, h]

/-- C5 counterexample: the Batch Worker run on a job already `failed`
does change its status: it first writes `processing` and finally
`completed`.  This falsifies the claim that a worker run never changes
the status of a terminal job. -/
theorem claim5_counterexample :
    terminalFailedJob.status = JobStatus.failed ∧
    (processJobRun lookupExnAll terminalFailedJob).1.status ≠ JobStatus.failed ∧
    (processJobRun lookupExnAll terminalFailedJob).1.status = JobStatus.completed ∧
    (processJobRun lookupExnAll terminalFailedJob).2[0]? =
      some { terminalFailedJob with status := JobStatus.processing } := by
  decide

/-- C5 amended: the stop operation never transitions a job out of a
terminal status, but the Batch Worker does not guard terminal statuses:
a run unconditionally writes `processing` first and ends the job
`completed`, whatever status it started from. -/
theorem claim5_amended :
    (∀ (lookup : Nat → LookupOutcome) (job : JobState),
      (processJobRun lookup job).1.status = JobStatus.completed ∧
      (processJobRun lookup job).2[0]? =
        some { job with status := JobStatus.processing }) ∧
    (∀ (uid : String) (now : Nat) (jobs : List StoredJob) (k : Nat) (j : StoredJob),
      jobs[k]? = some j →
      (j.state.status = JobStatus.completed ∨ j.state.status = JobStatus.failed) →
      ((stopAll (some uid) now jobs).1)[k]? = some j) := by
  constructor
  · intro lookup job
    refine ⟨(processJobRun_completes lookup job).1, ?_⟩
    rw [processJobRun_snd]
    simp
  · intro uid now jobs k j hk hterm
    exact stopAll_frame uid now jobs k j hk (stopTargets_terminal uid j hterm)

/-- Witness for the amended C5 at concrete inputs. -/
theorem claim5_witness :
    (processJobRun lookupExnAll sampleJob).1.status = JobStatus.completed ∧
    ((stopAll (some "u1") 5 [doneStoredJob]).1)[0]? = some doneStoredJob :=
  ⟨(claim5_amended.1 lookupExnAll sampleJob).1,
    claim5_amended.2 "u1" 5 [doneStoredJob] 0 doneStoredJob (by decide) (by decide)⟩

/-- C6 counterexample: stopping a processing job writes the fixed error
message of the stop route, which is not the string `manually stopped`
the claim names. -/
theorem claim6_counterexample :
    ((stopAll (some "u1") 9 [activeStoredJob]).1.map (fun j => j.state.errorMessage)) =
      [some "Job manually stopped due to insufficient credits"] ∧
    ¬ ((stopAll (some "u1") 9 [activeStoredJob]).1.map (fun j => j.state.errorMessage)) =
      [some "manually stopped"] := by
  decide

/-- C6 amended: stopping sets every pending or processing job of the
owner to `failed` with the fixed error message
`Job manually stopped due to insufficient credits` and a refreshed
`updated_at`, regardless of the current cursor, and stopping is
idempotent: a job already in a terminal status is left unchanged. -/
theorem claim6_amended :
    (∀ (uid : String) (now : Nat) (jobs : List StoredJob) (k : Nat) (j : StoredJob),
      jobs[k]? = some j → j.userId = uid →
      (j.state.status = JobStatus.pending ∨ j.state.status = JobStatus.processing) →
      ((stopAll (some uid) now jobs).1)[k]? = some
        { j with
          state := { j.state with
                     status := JobStatus.failed, errorMessage := some stopReasonMsg }
          updatedAt := now }) ∧
    (∀ (uid : String) (now : Nat) (jobs : List StoredJob) (k : Nat) (j : StoredJob),
      jobs[k]? = some j →
      (j.state.status = JobStatus.completed ∨ j.state.status = JobStatus.failed) →
      ((stopAll (some uid) now jobs).1)[k]? = some j) := by
  constructor
  · intro uid now jobs k j hk hu hact
    exact stopAll_effect uid now jobs k j hk (stopTargets_active uid j hu hact)
  · intro uid now jobs k j hk hterm
    exact stopAll_frame uid now jobs k j hk (stopTargets_terminal uid j hterm)

/-- Witness for the amended C6 at concrete inputs. -/
theorem claim6_witness :
    ((stopAll (some "u1") 9 [activeStoredJob]).1)[0]? = some
      { activeStoredJob with
        state := { activeStoredJob.state with
                   status := JobStatus.failed, errorMessage := some stopReasonMsg }
        updatedAt := 9 } ∧
    ((stopAll (some "u1") 5 [doneStoredJob]).1)[0]? = some doneStoredJob :=
  ⟨claim6_amended.1 "u1" 9 [activeStoredJob] 0 activeStoredJob (by decide) (by decide)
      (by decide),
    claim6_amended.2 "u1" 5 [doneStoredJob] 0 doneStoredJob (by decide) (by decide)⟩

/-- C10: the stop operation takes no job identifier; one call moves
every pending or processing job of the authenticated owner to `failed`
with the one fixed error message and a refreshed `updated_at`, leaves
every other row (terminal jobs of the owner, and all jobs of other
owners) unchanged, reports the number of rows it updated, and without an
authenticated user updates nothing. -/
theorem claim10_stop_all (uid : String) (now : Nat) (jobs : List StoredJob) :
    (∀ (k : Nat) (j : StoredJob), jobs[k]? = some j → j.userId = uid →
      (j.state.status = JobStatus.pending ∨ j.state.status = JobStatus.processing) →
      ((stopAll (some uid) now jobs).1)[k]? = some
        { j with
          state := { j.state with
                     status := JobStatus.failed, errorMessage := some stopReasonMsg }
          updatedAt := now }) ∧
    (∀ (k : Nat) (j : StoredJob), jobs[k]? = some j →
      (j.userId ≠ uid ∨ isActiveStatus j.state.status = false) →
      ((stopAll (some uid) now jobs).1)[k]? = some j) ∧
    (stopAll (some uid) now jobs).2 =
      StopResponse.ok (jobs.countP (stopTargets uid)) ∧
    stopAll none now jobs = (jobs, StopResponse.unauthorized) := by
  refine ⟨?_, ?_, ?_, rfl⟩
  · intro k j hk hu hact
    exact stopAll_effect uid now jobs k j hk (stopTargets_active uid j hu hact)
  · intro k j hk hother
    refine stopAll_frame uid now jobs k j hk ?_
    rcases hother with h | h
    · simp [stopTargets, h]
    · simp [stopTargets, h]
  · simp [stopAll, List.length_map, List.countP_eq_length_filter]

/-- Witness for C10: the owner row is stopped, the foreign row is
untouched, and one stopped job is reported. -/
theorem claim10_witness :
    ((stopAll (some "u1") 9 [activeStoredJob, otherOwnerJob]).1)[1]? =
      some otherOwnerJob ∧
    (stopAll (some "u1") 9 [activeStoredJob, otherOwnerJob]).2 =
      StopResponse.ok 1 :=
  ⟨(claim10_stop_all "u1" 9 [activeStoredJob, otherOwnerJob]).2.1 1 otherOwnerJob
      (by decide) (Or.inl (by decide)),
    by
      rw [(claim10_stop_all "u1" 9 [activeStoredJob, otherOwnerJob]).2.2.1]
      decide⟩

/-- Consecutive failed polls: the retry count accumulates and the
interval is the capped exponential of the final retry count. -/
theorem runPoller_failures : ∀ (n rc pi : Nat),
    runPoller ⟨rc, pi, false⟩ (List.replicate (n + 1) PollOutcome.failure) =
      ⟨rc + (n + 1), min (pollBaseMs * 2 ^ (rc + n)) pollCapMs, false⟩ := by
  intro n
  induction n with
  | zero =>
    intro rc pi
    show pollStep ⟨rc, pi, false⟩ PollOutcome.failure = _
    simp [pollStep]
  | succ m ih =>
    intro rc pi
    rw [List.replicate_succ]
    show runPoller (pollStep ⟨rc, pi, false⟩ PollOutcome.failure)
      (List.replicate (m + 1) PollOutcome.failure) = _
    have hstep : pollStep ⟨rc, pi, false⟩ PollOutcome.failure =
        (⟨rc + 1, min (pollBaseMs * 2 ^ rc) pollCapMs, false⟩ : PollerState) := by
      simp [pollStep]
    rw [hstep, ih (rc + 1) (min (pollBaseMs * 2 ^ rc) pollCapMs)]
    have h1 : rc + 1 + (m + 1) = rc + (m + 1 + 1) := by omega
    have h2 : rc + 1 + m = rc + (m + 1) := by omega
    rw [h1, h2]

/-- A stopped poller never reschedules: further observations are
ignored. -/
theorem runPoller_stopped : ∀ (outs : List PollOutcome) (s : PollerState),
    s.stopped = true → runPoller s outs = s := by
  intro outs
  induction outs with
  | nil => intro s _; rfl
  | cons o rest ih =>
    intro s hs
    show runPoller (pollStep s o) rest = s
    rw [show pollStep s o = s from by simp [pollStep, hs]]
    exact ih s hs

/-- C7: while the observed status is non-terminal the poller waits
`min(2000 * 2^(n-1), 30000)` after `n` consecutive failed polls, resets
the delay and the retry count to the 2000 ms base after any successful
poll, and stops permanently once the observed status is `completed` or
`failed`. -/
theorem claim7_poller_backoff :
    (∀ (n pi : Nat), 1 ≤ n →
      (runPoller ⟨0, pi, false⟩ (List.replicate n PollOutcome.failure)).pollInterval =
        min (pollBaseMs * 2 ^ (n - 1)) pollCapMs ∧
      (runPoller ⟨0, pi, false⟩ (List.replicate n PollOutcome.failure)).stopped = false) ∧
    (∀ (s : PollerState) (st : JobStatus), s.stopped = false →
      (pollStep s (PollOutcome.ok st)).pollInterval = pollBaseMs ∧
      (pollStep s (PollOutcome.ok st)).retryCount = 0) ∧
    (∀ (s : PollerState), s.stopped = false →
      (pollStep s (PollOutcome.ok JobStatus.completed)).stopped = true ∧
      (pollStep s (PollOutcome.ok JobStatus.failed)).stopped = true) ∧
    (∀ (s : PollerState) (outs : List PollOutcome), s.stopped = true →
      runPoller s outs = s) ∧
    pollBaseMs = 2000 ∧ pollCapMs = 30000 := by
  refine ⟨?_, ?_, ?_, fun s outs hs => runPoller_stopped outs s hs, rfl, rfl⟩
  · intro n pi hn
    obtain ⟨m, rfl⟩ : ∃ m, n = m + 1 := ⟨n - 1, by omega⟩
    rw [runPoller_failures m 0 pi]
    simp
  · intro s st hs
    cases st <;> simp [pollStep, hs]
  · intro s hs
    constructor <;> simp [pollStep, hs]

/-- Witness for C7 at concrete poller states. -/
theorem claim7_witness :
    (runPoller ⟨0, 2000, false⟩ (List.replicate 3 PollOutcome.failure)).pollInterval =
      min (pollBaseMs * 2 ^ 2) pollCapMs ∧
    (pollStep ⟨5, 32000, false⟩ (PollOutcome.ok JobStatus.processing)).pollInterval =
      pollBaseMs ∧
    (pollStep ⟨0, 2000, false⟩ (PollOutcome.ok JobStatus.completed)).stopped = true ∧
    runPoller ⟨0, 2000, true⟩ [PollOutcome.failure] = ⟨0, 2000, true⟩ :=
  ⟨(claim7_poller_backoff.1 3 2000 (by decide)).1,
    (claim7_poller_backoff.2.1 ⟨5, 32000, false⟩ JobStatus.processing (by decide)).1,
    (claim7_poller_backoff.2.2.1 ⟨0, 2000, false⟩ (by decide)).1,
    claim7_poller_backoff.2.2.2.1 ⟨0, 2000, true⟩ [PollOutcome.failure] (by decide)⟩

/-- C8 counterexample: the verify lookup surfaces one generic reason for
every thrown error, so its failure reason does not distinguish a timeout
from a connection failure, and the claim that both lookups distinguish
them is false. -/
theorem claim8_counterexample :
    (verifyEmailRealRun "a@b.c" (Except.error abortJsError)).reason =
      (verifyEmailRealRun "a@b.c" (Except.error
        { name := "TypeError", message := "fetch failed" })).reason ∧
    (verifyEmailRealRun "a@b.c" (Except.error abortJsError)).reason =
      some "Failed to verify email due to API error" ∧
    (verifyEmailRealRun "a@b.c" (Except.error abortJsError)).status =
      VerifyStatus.error := by
  decide

/-- C8 amended: the find lookup applies a 30-second timeout per attempt,
retries up to 3 attempts with exponential backoff of 2 s then 4 s, and
its final reason distinguishes timeout, connection failure, and rate
limit; the verify lookup applies a 30-second timeout to its single
attempt and surfaces one fixed generic reason with no retry. -/
theorem claim8_amended :
    (findTimeoutMs = 30000 ∧ verifyTimeoutMs = 30000 ∧ findMaxRetries = 3) ∧
    (∀ (attempt : Nat → Except JsError FindResult) (e1 e2 e3 : JsError),
      attempt 1 = Except.error e1 → attempt 2 = Except.error e2 →
      attempt 3 = Except.error e3 →
      findEmailRealRun attempt = (findErrorResult e3, [2000, 4000])) ∧
    (∀ (attempt : Nat → Except JsError FindResult) (r : FindResult),
      attempt 1 = Except.ok r → findEmailRealRun attempt = (r, [])) ∧
    (∀ e : JsError, isTimeoutError e = true →
      findFinalMessage e = "Request timed out after 30 seconds") ∧
    (∀ e : JsError, isTimeoutError e = false → isConnectionRefusedError e = true →
      findFinalMessage e = "Unable to connect to email finder service") ∧
    (∀ e : JsError, isTimeoutError e = false → isConnectionRefusedError e = false →
      isRateLimitError e = true →
      findFinalMessage e = "Rate limit exceeded - too many requests") ∧
    (∀ (email : String) (e : JsError),
      verifyEmailRealRun email (Except.error e) = verifyCatchResult email) := by
  refine ⟨⟨rfl, rfl, rfl⟩, ?_, ?_, ?_, ?_, ?_, fun email e => rfl⟩
  · intro attempt e1 e2 e3 h1 h2 h3
    show findLoop attempt 3 1 = _
    simp [findLoop, h1, h2, h3, findMaxRetries, backoffDelayMs]
  · intro attempt r h1
    show findLoop attempt 3 1 = _
    simp [findLoop, h1]
  · intro e ht
    simp [findFinalMessage, ht]
  · intro e ht hcr
    simp [findFinalMessage, ht, hcr]
  · intro e ht hcr hrl
    simp [findFinalMessage, ht, hcr, hrl]

/-- Witness for the amended C8 at concrete attempts. -/
theorem claim8_witness :
    findEmailRealRun failAllAttempts = (findErrorResult abortJsError, [2000, 4000]) ∧
    findFinalMessage abortJsError = "Request timed out after 30 seconds" ∧
    verifyEmailRealRun "a@b.c" (Except.error abortJsError) = verifyCatchResult "a@b.c" :=
  ⟨claim8_amended.2.1 failAllAttempts abortJsError abortJsError abortJsError rfl rfl rfl,
    claim8_amended.2.2.2.1 abortJsError (by decide),
    claim8_amended.2.2.2.2.2.2 "a@b.c" abortJsError⟩

/-- C9: an unauthenticated status read fails with 401; when no job with
the given id belongs to the requesting owner the read fails with 404 and
returns no job data; and a job is only ever returned to its owner. -/
theorem claim9_status_read :
    (∀ (jid : String) (jobs : List StoredJob),
      getJobStatus (some jid) none jobs = GetJobResponse.unauthorized) ∧
    (∀ (jid uid : String) (jobs : List StoredJob),
      (∀ j ∈ jobs, ¬(j.id = jid ∧ j.userId = uid)) →
      getJobStatus (some jid) (some uid) jobs = GetJobResponse.notFound) ∧
    (∀ (jid uid : String) (jobs : List StoredJob) (j : StoredJob),
      getJobStatus (some jid) (some uid) jobs = GetJobResponse.ok j →
      j.id = jid ∧ j.userId = uid ∧ j ∈ jobs) := by
  refine ⟨fun jid jobs => rfl, ?_, ?_⟩
  · intro jid uid jobs h
    have hf : jobs.filter (fun j => j.id = jid && j.userId = uid) = [] := by
      rw [List.filter_eq_nil_iff]
      intro j hj
      simpa using h j hj
    simp [getJobStatus, singleByIdAndUser, hf]
  · intro jid uid jobs j hok
    rcases hf : jobs.filter (fun j2 => j2.id = jid && j2.userId = uid) with _ | ⟨x, rest⟩
    · simp [getJobStatus, singleByIdAndUser, hf] at hok
    · rcases rest with _ | ⟨y, rest2⟩
      · simp [getJobStatus, singleByIdAndUser, hf] at hok
        have hx : x ∈ jobs.filter (fun j2 => j2.id = jid && j2.userId = uid) := by
          rw [hf]
          exact List.mem_singleton.mpr rfl
        obtain ⟨hmem, hpred⟩ := List.mem_filter.mp hx
        simp only [Bool.and_eq_true, decide_eq_true_eq] at hpred
        subst hok
        exact ⟨hpred.1, hpred.2, hmem⟩
      · simp [getJobStatus, singleByIdAndUser, hf] at hok

/-- Witness for C9 at a one-row store. -/
theorem claim9_witness :
    getJobStatus (some "j9") none [activeStoredJob] = GetJobResponse.unauthorized ∧
    getJobStatus (some "nope") (some "u1") [activeStoredJob] = GetJobResponse.notFound ∧
    (activeStoredJob.id = "j2" ∧ activeStoredJob.userId = "u1" ∧
      activeStoredJob ∈ [activeStoredJob]) :=
  ⟨claim9_status_read.1 "j9" [activeStoredJob],
    claim9_status_read.2.1 "nope" "u1" [activeStoredJob] (by decide),
    claim9_status_read.2.2 "j2" "u1" [activeStoredJob] activeStoredJob (by decide)⟩

end MailFinder
